import Mathlib

/-!
Verification development for the RealTime_Chat_Applicatuons backend.

The embedding follows the source files:
- the socket.io server (presence map `activeUsers`, room relay handlers);
- `BackEnd/routes/messages.js` (create message, chat history, mark read,
  unread count);
- the chats aggregation route (MongoDB aggregate pipeline producing
  per-conversation summaries).

MongoDB / Mongoose operations that the routes call (`find().sort().skip()
.limit()`, `updateMany`, `$group`, `$sort`) are embedded by their documented
semantics; where the server leaves an order unspecified (sorting documents
whose sort keys are equal), the embedding uses a relation (`IsDescSortOf`)
rather than a function, so that every permitted output is covered.
-/

/-- A stored chat message: one document of the Mongoose `Message` collection,
with the fields the routes read and write. `mid` stands for the document id,
`createdAt` for the timestamp assigned at persistence time. -/
structure Message where
  mid : Nat
  sender : String
  recipient : String
  content : String
  messageType : String
  chatId : String
  createdAt : Nat
  isRead : Bool
  readAt : Option Nat
deriving DecidableEq, Repr

/-! ## JavaScript `Map` (the `activeUsers` presence map) -/

/-- JS `Map.set(k, v)`: overwrite the value when the key is present, append the
pair otherwise (JS maps keep insertion order). -/
def mapSet (m : List (String × String)) (k v : String) : List (String × String) :=
  if m.any (fun p => p.1 = k) then
    m.map (fun p => if p.1 = k then (k, v) else p)
  else m ++ [(k, v)]

/-- JS `Map.delete(k)`: remove the entry with key `k`. -/
def mapDelete (m : List (String × String)) (k : String) : List (String × String) :=
  m.filter (fun p => p.1 ≠ k)

/-- JS `Map.get(k)`: the value stored at key `k`, if any. -/
def mapGet (m : List (String × String)) (k : String) : Option String :=
  (m.find? (fun p => p.1 = k)).map (fun p => p.2)

/-! ## Presence: the socket.io connection handlers -/

/-- Events emitted via `socket.broadcast.emit` to every other connection. -/
inductive BroadcastEvent where
  | userOnline (userId : String)
  | userOffline (userId : String)
deriving DecidableEq, Repr

/-- The server-side presence state: the `activeUsers` map (userId → socket
id), the `userId` field stored on each socket object by the `join` handler,
and the trace of presence broadcasts emitted so far. -/
structure PresenceState where
  activeUsers : List (String × String)
  socketUser : String → Option String
  broadcasts : List BroadcastEvent

/-- State before any connection: empty map, no socket carries a userId. -/
def initialPresence : PresenceState :=
  { activeUsers := [], socketUser := fun _ => none, broadcasts := [] }

/-- Handler `socket.on('join')`: `activeUsers.set(userId, socket.id)`,
`socket.userId = userId`, `socket.broadcast.emit('userOnline', userId)`. -/
def joinEvent (st : PresenceState) (sock userId : String) : PresenceState :=
  { activeUsers := mapSet st.activeUsers userId sock
    socketUser := fun s => if s = sock then some userId else st.socketUser s
    broadcasts := st.broadcasts ++ [.userOnline userId] }

/-- Handler `socket.on('disconnect')`: if `socket.userId` is set,
`activeUsers.delete(socket.userId)` and broadcast `userOffline`; otherwise
nothing happens. -/
def disconnectEvent (st : PresenceState) (sock : String) : PresenceState :=
  match st.socketUser sock with
  | some userId =>
      { activeUsers := mapDelete st.activeUsers userId
        socketUser := st.socketUser
        broadcasts := st.broadcasts ++ [.userOffline userId] }
  | none => st

/-- Lookup `resolve(userId)`: the socket id currently registered for the user,
i.e. `activeUsers.get(userId)`. -/
def resolve (st : PresenceState) (userId : String) : Option String :=
  mapGet st.activeUsers userId

/-! ## Conversation key -/

/-- Key computed by `router.post('/')` line 12: `[req.user._id, recipient].sort().join('_')`.
JS `Array.prototype.sort` on two strings yields the lexicographically
smaller one first. -/
def sendChatId (senderId recipient : String) : String :=
  if senderId ≤ recipient then senderId ++ "_" ++ recipient
  else recipient ++ "_" ++ senderId

/-- Key computed by `router.get('/chat/:userId')` line 39: `[req.user._id, userId].sort()
.join('_')`. -/
def historyChatId (requesterId userId : String) : String :=
  if requesterId ≤ userId then requesterId ++ "_" ++ userId
  else userId ++ "_" ++ requesterId

/-! ## Helper lemmas on the map model -/

theorem mapGet_mapDelete (m : List (String × String)) (k : String) :
    mapGet (mapDelete m k) k = none := by
  unfold mapGet mapDelete
  rw [List.find?_eq_none.mpr]
  · rfl
  · intro p hp
    rcases List.mem_filter.mp hp with ⟨_, hne⟩
    simpa using hne

theorem find?_overwrite_self (t : List (String × String)) (k v : String) :
    List.find? (fun p => p.1 = k) (t.map fun p => if p.1 = k then (k, v) else p) =
      if t.any (fun p => p.1 = k) then some (k, v) else none := by
  induction t with
  | nil => rfl
  | cons p t ih =>
      by_cases hp : p.1 = k
      · simp [hp]
      · simp only [List.map_cons, if_neg hp]
        rw [List.find?_cons_of_neg _ (by simpa using hp), ih, List.any_cons]
        have hdp : decide (p.1 = k) = false := by simpa using hp
        rw [hdp, Bool.false_or]

theorem find?_overwrite_other (t : List (String × String)) (k v k2 : String)
    (hne : k2 ≠ k) :
    List.find? (fun p => p.1 = k2) (t.map fun p => if p.1 = k then (k, v) else p) =
      List.find? (fun p => p.1 = k2) t := by
  induction t with
  | nil => rfl
  | cons p t ih =>
      by_cases hp : p.1 = k
      · have hk2 : ¬(k = k2) := fun h => hne h.symm
        have hp2 : ¬(p.1 = k2) := by
          rw [hp]; exact hk2
        simp only [List.map_cons, if_pos hp]
        rw [List.find?_cons_of_neg _ (by simpa using hk2),
          List.find?_cons_of_neg _ (by simpa using hp2)]
        exact ih
      · simp only [List.map_cons, if_neg hp]
        by_cases hp2 : p.1 = k2
        · rw [List.find?_cons_of_pos _ (by simpa using hp2),
            List.find?_cons_of_pos _ (by simpa using hp2)]
        · rw [List.find?_cons_of_neg _ (by simpa using hp2),
            List.find?_cons_of_neg _ (by simpa using hp2)]
          exact ih

theorem mapGet_mapSet_self (m : List (String × String)) (k v : String) :
    mapGet (mapSet m k v) k = some v := by
  unfold mapGet mapSet
  by_cases h : m.any (fun p => p.1 = k)
  · rw [if_pos h, find?_overwrite_self, if_pos h]
    rfl
  · rw [if_neg h, List.find?_append, List.find?_eq_none.mpr, Option.none_or]
    · simp
    · intro p hp
      simp only [List.any_eq_true, decide_eq_true_eq] at h
      push_neg at h
      simpa using h p hp

theorem mapGet_mapSet_other (m : List (String × String)) (k v k2 : String)
    (hne : k2 ≠ k) : mapGet (mapSet m k v) k2 = mapGet m k2 := by
  unfold mapGet mapSet
  by_cases h : m.any (fun p => p.1 = k)
  · rw [if_pos h, find?_overwrite_other m k v k2 hne]
  · rw [if_neg h, List.find?_append]
    have hk2 : ¬(k = k2) := fun hh => hne hh.symm
    have h1 : List.find? (fun p => p.1 = k2) [(k, v)] = none := by
      rw [List.find?_cons_of_neg _ (by simpa using hk2)]
      rfl
    rw [h1]
    simp

/-! ## Presence claims -/

/-- C1, counterexample: the claim says that after `join(u, h1)` then
`join(u, h2)` (h1 ≠ h2), a disconnect of the superseded handle h1 is a
silent no-op and `resolve(u)` still returns h2.  In the code the disconnect
handler deletes by `socket.userId`, so it evicts the newer entry:
`resolve(u)` is `none`, not `some h2`. -/
theorem c1_presence_counterexample :
    resolve (disconnectEvent (joinEvent (joinEvent initialPresence "h1" "u") "h2" "u") "h1") "u"
        = none ∧
    ("h1" : String) ≠ "h2" ∧ (none : Option String) ≠ some "h2" := by
  refine ⟨?_, by decide, by decide⟩
  rfl

/-- C1, amended: presence removal is keyed by the `userId` recorded on the
socket, not by connection-handle identity.  After `join(u, h1)` then
`join(u, h2)`, a disconnect of the superseded handle h1 still evicts the
user's entry, so `resolve(u)` is absent; and after `join(u, h)` followed by
a disconnect of `h`, `resolve(u)` is absent. -/
theorem c1_presence_leave_amended (st : PresenceState) (u h1 h2 h3 : String) :
    resolve (disconnectEvent (joinEvent (joinEvent st h1 u) h2 u) h1) u = none ∧
    resolve (disconnectEvent (joinEvent st h3 u) h3) u = none := by
  have hsu : (joinEvent (joinEvent st h1 u) h2 u).socketUser h1 = some u := by
    simp only [joinEvent]
    by_cases h : h1 = h2 <;> simp [h]
  have hsu3 : (joinEvent st h3 u).socketUser h3 = some u := by
    simp [joinEvent]
  constructor
  · unfold disconnectEvent
    rw [hsu]
    exact mapGet_mapDelete _ u
  · unfold disconnectEvent
    rw [hsu3]
    exact mapGet_mapDelete _ u

/-- C10: a single connection that joins first as u1 and then as u2 leaves
both entries in `activeUsers` (both resolve to the same socket id); on its
disconnect only u2's entry is removed and only `userOffline(u2)` is
broadcast, so `resolve(u1)` still returns the dead handle. -/
theorem c10_two_identities_one_socket (h u1 u2 : String) (hne : u1 ≠ u2) :
    resolve (disconnectEvent (joinEvent (joinEvent initialPresence h u1) h u2) h) u1
        = some h ∧
    resolve (disconnectEvent (joinEvent (joinEvent initialPresence h u1) h u2) h) u2
        = none ∧
    (disconnectEvent (joinEvent (joinEvent initialPresence h u1) h u2) h).broadcasts
        = [.userOnline u1, .userOnline u2, .userOffline u2] := by
  have hact : (joinEvent (joinEvent initialPresence h u1) h u2).activeUsers
      = [(u1, h), (u2, h)] := by
    simp [joinEvent, initialPresence, mapSet, hne]
  have hsu : (joinEvent (joinEvent initialPresence h u1) h u2).socketUser h = some u2 := by
    simp [joinEvent]
  refine ⟨?_, ?_, ?_⟩
  · unfold disconnectEvent
    rw [hsu]
    show mapGet (mapDelete _ u2) u1 = some h
    rw [hact]
    simp [mapDelete, mapGet, Ne.symm hne, List.find?_cons_of_pos, hne]
  · unfold disconnectEvent
    rw [hsu]
    exact mapGet_mapDelete _ u2
  · unfold disconnectEvent
    rw [hsu]
    simp [joinEvent, initialPresence]

/-- C10 witness at concrete inputs. -/
theorem c10_two_identities_one_socket_witness :
    resolve (disconnectEvent (joinEvent (joinEvent initialPresence "h" "a") "h" "b") "h") "a"
        = some "h" ∧
    resolve (disconnectEvent (joinEvent (joinEvent initialPresence "h" "a") "h" "b") "h") "b"
        = none ∧
    (disconnectEvent (joinEvent (joinEvent initialPresence "h" "a") "h" "b") "h").broadcasts
        = [.userOnline "a", .userOnline "b", .userOffline "b"] :=
  c10_two_identities_one_socket "h" "a" "b" (by decide)

/-! ## Conversation-key claims -/

/-- C6: the conversation key `[a, b].sort().join('_')` is a commutative
function of the two participant ids, and the key computed by the send route
equals the key computed by the history route on the same pair. -/
theorem c6_chatId_commutative (a b : String) :
    sendChatId a b = sendChatId b a ∧ sendChatId a b = historyChatId a b := by
  constructor
  · unfold sendChatId
    rcases le_total a b with h | h
    · rw [if_pos h]
      by_cases hba : b ≤ a
      · have hab : a = b := le_antisymm h hba
        subst hab
        rw [if_pos le_rfl]
      · rw [if_neg hba]
    · rw [if_pos h]
      by_cases hab : a ≤ b
      · have heq : a = b := le_antisymm hab h
        subst heq
        rw [if_pos le_rfl]
      · rw [if_neg hab]
  · rfl

/-! ## MessageStore: mark read (`router.put('/read/:chatId')`) -/

/-- The `updateMany` filter of the mark-read route:
`{ chatId, recipient: req.user._id, isRead: false }`. -/
def unreadPred (chatId readerId : String) (m : Message) : Bool :=
  m.chatId == chatId && m.recipient == readerId && m.isRead == false

/-- Embedding of `Message.updateMany({chatId, recipient, isRead:false},
{isRead:true, readAt:now})` over the stored collection.  The first component
is the collection after the update, the second the `modifiedCount` reported
in the update result (each matched document changes, since its `isRead`
flips from false to true). -/
def markRead (log : List Message) (chatId readerId : String) (now : Nat) :
    List Message × Nat :=
  (log.map fun m =>
      if unreadPred chatId readerId m then { m with isRead := true, readAt := some now }
      else m,
   (log.filter (unreadPred chatId readerId)).length)

/-! ## MessageStore: chat history (`router.get('/chat/:userId')`) -/

/-- MongoDB `cursor.skip(n)`: the server rejects a negative skip with a
`BadValue` error (surfaced by the route's catch as a 500). -/
def applySkip (n : Int) (l : List Message) : Except String (List Message) :=
  if n < 0 then .error "BadValue: skip must be non-negative"
  else .ok (l.drop n.toNat)

/-- MongoDB `cursor.limit(n)`: `limit(0)` means no limit at all; a negative
limit behaves as its absolute value. -/
def applyLimit (n : Int) (l : List Message) : List Message :=
  if n = 0 then l else l.take n.natAbs

/-- Documents sorted by `{createdAt: -1}`: non-increasing createdAt. -/
def SortedByCreatedAtDesc (l : List Message) : Prop :=
  l.Pairwise fun a b => b.createdAt ≤ a.createdAt

instance : DecidablePred SortedByCreatedAtDesc := fun l => by
  unfold SortedByCreatedAtDesc
  infer_instance

/-- Relation: `out` is a possible result of MongoDB `sort({createdAt: -1})` applied to
`docs`: a permutation that is non-increasing in `createdAt`.  The server
specifies no order between documents with equal sort keys, so this is a
relation, not a function. -/
def IsDescSortOf (docs out : List Message) : Prop :=
  docs.Perm out ∧ SortedByCreatedAtDesc out

instance (docs out : List Message) : Decidable (IsDescSortOf docs out) := by
  unfold IsDescSortOf
  infer_instance

/-- The history route after the sort: `.skip((page-1)*limit).limit(limit)`
on the descending documents, then `messages.reverse()`.  `pageParam` and
`limitParam` are the query parameters; destructuring defaults apply only
when a parameter is missing (`page = 1`, `limit = 50`). -/
def getChatMessages (desc : List Message) (pageParam limitParam : Option Int) :
    Except String (List Message) :=
  let page := pageParam.getD 1
  let limit := limitParam.getD 50
  match applySkip ((page - 1) * limit) desc with
  | .error e => .error e
  | .ok l => .ok ((applyLimit limit l).reverse)

/-- The page contents for positive page/limit, as natural numbers: drop
`(p-1)*L` of the descending documents, take `L`, and reverse. -/
def historyPage (desc : List Message) (p L : Nat) : List Message :=
  ((desc.drop ((p - 1) * L)).take L).reverse

/-- Concatenation of pages `k, k-1, ..., 1` (oldest page first). -/
def concatPagesDown (desc : List Message) (L : Nat) : Nat → List Message
  | 0 => []
  | Nat.succ k => historyPage desc (k + 1) L ++ concatPagesDown desc L k

/-! ## Mark-read claims -/

theorem unreadPred_eq_decide (cid r : String) (m : Message) :
    unreadPred cid r m
      = decide (m.chatId = cid ∧ m.recipient = r ∧ m.isRead = false) := by
  unfold unreadPred
  by_cases h1 : m.chatId = cid <;> by_cases h2 : m.recipient = r <;>
    by_cases h3 : m.isRead = false <;> simp [h1, h2, h3]

theorem markRead_unreadPred_false (log : List Message) (cid r : String) (t1 : Nat) :
    ∀ m2 ∈ (markRead log cid r t1).1, unreadPred cid r m2 = false := by
  intro m2 hm2
  simp only [markRead, List.mem_map] at hm2
  obtain ⟨m, _, rfl⟩ := hm2
  by_cases h : unreadPred cid r m = true
  · rw [if_pos h]
    simp [unreadPred]
  · rw [if_neg h]
    simpa using h

/-- C2: `markRead` updates exactly the messages of the conversation addressed
to the reader that are still unread, setting `isRead := true` and
`readAt := now`; the reported count is the number of such messages; and an
immediately repeated call modifies nothing (so every already-set `readAt`
stays unchanged) and reports count 0. -/
theorem c2_markRead_exact_and_idempotent (log : List Message) (cid r : String)
    (t1 t2 : Nat) :
    (markRead log cid r t1).1 =
      (log.map fun m =>
        if m.chatId = cid ∧ m.recipient = r ∧ m.isRead = false
        then { m with isRead := true, readAt := some t1 } else m) ∧
    (markRead log cid r t1).2 =
      (log.filter fun m =>
        decide (m.chatId = cid ∧ m.recipient = r ∧ m.isRead = false)).length ∧
    markRead (markRead log cid r t1).1 cid r t2 = ((markRead log cid r t1).1, 0) := by
  refine ⟨?_, ?_, ?_⟩
  · simp only [markRead, unreadPred_eq_decide, decide_eq_true_eq]
  · show (log.filter (unreadPred cid r)).length = _
    rw [List.filter_congr fun m _ => unreadPred_eq_decide cid r m]
  · have hnot := markRead_unreadPred_false log cid r t1
    generalize hl : (markRead log cid r t1).1 = l1 at hnot ⊢
    unfold markRead
    refine Prod.ext ?_ ?_
    · show List.map _ l1 = l1
      rw [List.map_congr_left fun m2 hm2 => if_neg (by rw [hnot m2 hm2]; simp)]
      exact List.map_id' l1
    · show (List.filter _ l1).length = 0
      rw [List.filter_congr fun m2 hm2 => hnot m2 hm2]
      simp

/-! ## Concrete sample messages for counterexamples and witnesses -/

/-- Oldest sample message of the alice/bob conversation. -/
def msgA : Message :=
  { mid := 1, sender := "alice", recipient := "bob", content := "hi",
    messageType := "text", chatId := "alice_bob", createdAt := 1,
    isRead := false, readAt := none }

/-- Newest sample message of the alice/bob conversation. -/
def msgB : Message :=
  { mid := 2, sender := "bob", recipient := "alice", content := "yo",
    messageType := "text", chatId := "alice_bob", createdAt := 2,
    isRead := false, readAt := none }

/-- The sample conversation already sorted by descending createdAt. -/
def logDescAB : List Message := [msgB, msgA]

/-! ## History pagination claims -/

/-- C3, counterexample: with limit 1, page 1 is `[msgB]` and page 2 is
`[msgA]`, so concatenating pages 1..2 in order yields `[msgB, msgA]`: not in
ascending createdAt order, and not the ascending sequence `[msgA, msgB]` of
the two newest messages that the claim requires. -/
theorem c3_concat_counterexample :
    IsDescSortOf logDescAB logDescAB ∧
    historyPage logDescAB 1 1 ++ historyPage logDescAB 2 1 = [msgB, msgA] ∧
    ¬ ((historyPage logDescAB 1 1 ++ historyPage logDescAB 2 1).Pairwise
        fun a b => a.createdAt ≤ b.createdAt) ∧
    (logDescAB.take 2).reverse = [msgA, msgB] ∧
    ([msgB, msgA] : List Message) ≠ [msgA, msgB] := by
  refine ⟨by decide, by decide, ?_, by decide, by decide⟩
  intro hpw
  have : msgB.createdAt ≤ msgA.createdAt := by
    have h2 : historyPage logDescAB 1 1 ++ historyPage logDescAB 2 1 = [msgB, msgA] := by decide
    rw [h2] at hpw
    exact List.rel_of_pairwise_cons hpw (List.mem_singleton.mpr rfl)
  exact absurd this (by decide)

/-- C3, amended: each page holds at most `limit` messages in ascending
createdAt order, page 1 is the `limit` newest messages oldest-first, and
concatenating pages k, k-1, ..., 1 — newest page LAST, not pages 1..k in
order — reproduces the k·limit newest messages of the conversation in
ascending order with no duplicates and no gaps; for positive parameters the
route returns exactly this page. -/
theorem c3_history_pagination_amended (desc : List Message) (L k p : Nat)
    (hs : SortedByCreatedAtDesc desc) (hp : 1 ≤ p) (hL : 1 ≤ L) :
    (historyPage desc p L).length ≤ L ∧
    ((historyPage desc p L).Pairwise fun a b => a.createdAt ≤ b.createdAt) ∧
    historyPage desc 1 L = (desc.take L).reverse ∧
    concatPagesDown desc L k = (desc.take (k * L)).reverse ∧
    getChatMessages desc (some (p : Int)) (some (L : Int))
      = .ok (historyPage desc p L) := by
  refine ⟨?_, ?_, ?_, ?_, ?_⟩
  · simp only [historyPage, List.length_reverse]
    exact List.length_take_le L _
  · unfold historyPage
    rw [List.pairwise_reverse]
    exact List.Pairwise.sublist ((List.take_sublist L _).trans (List.drop_sublist _ desc)) hs
  · simp [historyPage]
  · induction k with
    | zero => simp [concatPagesDown]
    | succ k ih =>
        show historyPage desc (k + 1) L ++ concatPagesDown desc L k = _
        rw [ih, Nat.succ_mul, List.take_add, List.reverse_append]
        simp [historyPage]
  · unfold getChatMessages applySkip applyLimit
    have hskip : ¬ (((p : Int) - 1) * (L : Int) < 0) := by
      push_neg
      apply mul_nonneg _ (by positivity)
      omega
    dsimp only
    rw [Option.getD_some, Option.getD_some, if_neg hskip]
    have hL0 : ¬ ((L : Int) = 0) := by omega
    dsimp only
    rw [if_neg hL0]
    have htn : (((p : Int) - 1) * (L : Int)).toNat = (p - 1) * L := by
      have hcast : ((p : Int) - 1) * (L : Int) = (((p - 1) * L : Nat) : Int) := by
        push_cast [Nat.cast_sub hp]
        ring
      rw [hcast, Int.toNat_ofNat]
    have hna : ((L : Int)).natAbs = L := Int.natAbs_ofNat L
    rw [htn, hna]
    rfl

/-- C3 witness at concrete inputs. -/
theorem c3_history_pagination_amended_witness :
    SortedByCreatedAtDesc logDescAB ∧
    ((historyPage logDescAB 1 1).length ≤ 1 ∧
     ((historyPage logDescAB 1 1).Pairwise fun a b => a.createdAt ≤ b.createdAt) ∧
     historyPage logDescAB 1 1 = (logDescAB.take 1).reverse ∧
     concatPagesDown logDescAB 1 2 = (logDescAB.take (2 * 1)).reverse ∧
     getChatMessages logDescAB (some (1 : Int)) (some (1 : Int))
       = .ok (historyPage logDescAB 1 1)) :=
  ⟨by decide,
   c3_history_pagination_amended logDescAB 1 2 1 (by decide) (by decide) (by decide)⟩

/-- C7, counterexample: page=0 is not defaulted to 1.  The route computes
skip((0-1)*50) = skip(-50), which the server rejects, so the request errors,
while page=1 returns the conversation; the two results differ. -/
theorem c7_nonpositive_page_counterexample :
    getChatMessages logDescAB (some 0) (some 50)
        = .error "BadValue: skip must be non-negative" ∧
    getChatMessages logDescAB (some 1) (some 50) = .ok [msgA, msgB] ∧
    getChatMessages logDescAB (some 0) (some 50)
        ≠ getChatMessages logDescAB (some 1) (some 50) := by
  have h1 : getChatMessages logDescAB (some 0) (some 50)
      = .error "BadValue: skip must be non-negative" := rfl
  have h2 : getChatMessages logDescAB (some 1) (some 50) = .ok [msgA, msgB] := rfl
  refine ⟨h1, h2, ?_⟩
  rw [h1, h2]
  intro h
  exact Except.noConfusion h

/-- C7, amended: only missing page/limit parameters default (to 1 and 50);
non-positive supplied values are passed through: a non-positive page with a
positive limit makes the skip negative and the request fail, and limit=0
disables the limit entirely, returning the whole conversation. -/
theorem c7_defaults_amended (desc : List Message) (p L : Int)
    (hp : p ≤ 0) (hL : 1 ≤ L) :
    getChatMessages desc none none = getChatMessages desc (some 1) (some 50) ∧
    getChatMessages desc (some p) (some L)
      = .error "BadValue: skip must be non-negative" ∧
    getChatMessages desc (some 1) (some 0) = .ok desc.reverse := by
  refine ⟨rfl, ?_, ?_⟩
  · unfold getChatMessages applySkip
    have hneg : (p - 1) * L < 0 :=
      mul_neg_of_neg_of_pos (by omega) (by omega)
    dsimp only
    rw [Option.getD_some, Option.getD_some, if_pos hneg]
  · unfold getChatMessages applySkip applyLimit
    norm_num

/-- C7 witness at concrete inputs. -/
theorem c7_defaults_amended_witness :
    ((0 : Int) ≤ 0) ∧ ((1 : Int) ≤ 50) ∧
    (getChatMessages logDescAB none none
        = getChatMessages logDescAB (some 1) (some 50) ∧
     getChatMessages logDescAB (some 0) (some 50)
        = .error "BadValue: skip must be non-negative" ∧
     getChatMessages logDescAB (some 1) (some 0) = .ok logDescAB.reverse) :=
  ⟨by decide, by decide, c7_defaults_amended logDescAB 0 50 (by decide) (by decide)⟩

/-! ## Ordering determinism claims -/

/-- First of two distinct messages sharing `createdAt = 5`. -/
def msgT1 : Message :=
  { mid := 10, sender := "alice", recipient := "bob", content := "x",
    messageType := "text", chatId := "alice_bob", createdAt := 5,
    isRead := false, readAt := none }

/-- Second of two distinct messages sharing `createdAt = 5`. -/
def msgT2 : Message :=
  { mid := 11, sender := "bob", recipient := "alice", content := "y",
    messageType := "text", chatId := "alice_bob", createdAt := 5,
    isRead := false, readAt := none }

/-- A conversation log with a createdAt tie. -/
def tieLog : List Message := [msgT1, msgT2]

/-- C4, counterexample: the sort key is `createdAt` alone; for the log
`[msgT1, msgT2]` with equal createdAt, both interleavings are valid outputs
of `sort({createdAt: -1})`, so no monotone insertion sequence number orders
them and the output is not deterministic. -/
theorem c4_tie_counterexample :
    msgT1.createdAt = msgT2.createdAt ∧ msgT1 ≠ msgT2 ∧
    IsDescSortOf tieLog [msgT1, msgT2] ∧
    IsDescSortOf tieLog [msgT2, msgT1] ∧
    ([msgT1, msgT2] : List Message) ≠ [msgT2, msgT1] := by
  refine ⟨by decide, by decide, ⟨List.Perm.refl _, ?_⟩, ⟨List.Perm.swap _ _ _, ?_⟩, by decide⟩
  · decide
  · decide

/-- A descending-sorted permutation of a list with pairwise-distinct keys is
unique. -/
theorem sorted_desc_perm_unique (key : Message → Nat) (l1 l2 : List Message)
    (hperm : l1.Perm l2)
    (hs1 : l1.Pairwise fun a b => key b ≤ key a)
    (hs2 : l2.Pairwise fun a b => key b ≤ key a)
    (hnd : (l1.map key).Nodup) : l1 = l2 := by
  have hnd2 : (l2.map key).Nodup := (hperm.map key).nodup_iff.mp hnd
  have hne1 : l1.Pairwise fun a b => key a ≠ key b := List.pairwise_map.mp hnd
  have hne2 : l2.Pairwise fun a b => key a ≠ key b := List.pairwise_map.mp hnd2
  have hlt1 : l1.Pairwise fun a b => key b < key a :=
    (hs1.and hne1).imp fun h => lt_of_le_of_ne h.1 (Ne.symm h.2)
  have hlt2 : l2.Pairwise fun a b => key b < key a :=
    (hs2.and hne2).imp fun h => lt_of_le_of_ne h.1 (Ne.symm h.2)
  haveI : IsAntisymm Message (fun a b => key b < key a) :=
    ⟨fun a b h1 h2 => absurd (lt_trans h1 h2) (lt_irrefl _)⟩
  exact List.eq_of_perm_of_sorted hperm hlt1 hlt2

/-- C4, amended: the ordering used by history and by the aggregator sorts by
`createdAt` alone — there is no insertion sequence number — so equal
timestamps have no specified order; the output is deterministic exactly in
the tie-free case: when the createdAt values of the documents are pairwise
distinct, any two valid sort outputs coincide. -/
theorem c4_sort_deterministic_when_distinct_amended (docs out1 out2 : List Message)
    (hnd : (docs.map Message.createdAt).Nodup)
    (h1 : IsDescSortOf docs out1) (h2 : IsDescSortOf docs out2) : out1 = out2 := by
  rcases h1 with ⟨hp1, hs1⟩
  rcases h2 with ⟨hp2, hs2⟩
  have hnd1 : (out1.map Message.createdAt).Nodup := (hp1.map _).nodup_iff.mp hnd
  exact sorted_desc_perm_unique Message.createdAt out1 out2
    (hp1.symm.trans hp2) hs1 hs2 hnd1

/-- C4 witness at concrete inputs. -/
theorem c4_sort_deterministic_when_distinct_amended_witness :
    (logDescAB.map Message.createdAt).Nodup ∧
    IsDescSortOf logDescAB logDescAB ∧ ([msgB, msgA] : List Message) = logDescAB :=
  ⟨by decide, ⟨List.Perm.refl _, by decide⟩,
   c4_sort_deterministic_when_distinct_amended logDescAB [msgB, msgA] logDescAB
     (by decide) ⟨by decide, by decide⟩ ⟨List.Perm.refl _, by decide⟩⟩

/-! ## ConnectionRouter: room relay handlers -/

/-- Server-side room state: socket.io room membership (built by
`socket.join`) plus the `userId` field the join handler stores on each
socket. -/
structure RoomState where
  rooms : List (String × List String)
  socketUser : String → Option String

/-- The current subscribers of a conversation topic. -/
def roomMembers (st : RoomState) (roomId : String) : List String :=
  ((st.rooms.find? (fun p => p.1 = roomId)).map (fun p => p.2)).getD []

/-- Handler `socket.on('joinRoom')`: `socket.join(roomId)`.  socket.io rooms are
sets, so joining twice is idempotent. -/
def joinRoom (st : RoomState) (sock roomId : String) : RoomState :=
  if (roomMembers st roomId).contains sock then st
  else if st.rooms.any (fun p => p.1 = roomId) then
    { st with rooms := st.rooms.map fun p =>
        if p.1 = roomId then (roomId, p.2 ++ [sock]) else p }
  else { st with rooms := st.rooms ++ [(roomId, [sock])] }

/-- The payload of a `sendMessage` event: its `chatId` routing field plus
the rest of the message data, relayed verbatim. -/
structure MessageData where
  chatId : String
  body : String
deriving DecidableEq, Repr

/-- Handler `socket.on('sendMessage')`:
`socket.to(messageData.chatId).emit('newMessage', messageData)`.
socket.io `socket.to(room)` targets every socket in the room except the
sending socket; the result lists the (recipient handle, payload)
deliveries. -/
def sendMessageEvent (st : RoomState) (sender : String) (md : MessageData) :
    List (String × MessageData) :=
  ((roomMembers st md.chatId).filter (fun h => h ≠ sender)).map (fun h => (h, md))

/-- The relayed typing payload `{userId, isTyping}`. -/
structure TypingPayload where
  userId : Option String
  isTyping : Bool
deriving DecidableEq, Repr

/-- Handler `socket.on('typing')`: `socket.to(data.chatId).emit('userTyping',
{userId: socket.userId, isTyping: data.isTyping})`, again excluding the
sending socket. -/
def typingEvent (st : RoomState) (sender chatId : String) (isTyping : Bool) :
    List (String × TypingPayload) :=
  ((roomMembers st chatId).filter (fun h => h ≠ sender)).map
    (fun h => (h, { userId := st.socketUser sender, isTyping := isTyping }))

/-- C9: a relay publish on a conversation topic is delivered to exactly the
current subscribers of the topic other than the publishing connection (the
sender gets no echo of its own message), and the typing event is relayed as
`{userId, isTyping}` where userId is the publisher's joined identity. -/
theorem c9_relay_excludes_sender (st : RoomState) (sender u h : String)
    (md : MessageData) (b : Bool) (hu : st.socketUser sender = some u) :
    ((h, md) ∈ sendMessageEvent st sender md ↔
      h ∈ roomMembers st md.chatId ∧ h ≠ sender) ∧
    ((h, ({ userId := some u, isTyping := b } : TypingPayload))
        ∈ typingEvent st sender md.chatId b ↔
      h ∈ roomMembers st md.chatId ∧ h ≠ sender) ∧
    (sendMessageEvent st sender md).map Prod.snd
      = ((roomMembers st md.chatId).filter (fun x => x ≠ sender)).map (fun _ => md) ∧
    (typingEvent st sender md.chatId b).map Prod.snd
      = ((roomMembers st md.chatId).filter (fun x => x ≠ sender)).map
          (fun _ => ({ userId := some u, isTyping := b } : TypingPayload)) := by
  refine ⟨?_, ?_, ?_, ?_⟩
  · unfold sendMessageEvent
    constructor
    · intro hmem
      rcases List.mem_map.mp hmem with ⟨x, hx, hpair⟩
      rcases List.mem_filter.mp hx with ⟨hxmem, hxne⟩
      cases hpair
      exact ⟨hxmem, by simpa using hxne⟩
    · intro ⟨hmem, hne⟩
      exact List.mem_map.mpr ⟨h, List.mem_filter.mpr ⟨hmem, by simpa using hne⟩, rfl⟩
  · unfold typingEvent
    rw [hu]
    constructor
    · intro hmem
      rcases List.mem_map.mp hmem with ⟨x, hx, hpair⟩
      rcases List.mem_filter.mp hx with ⟨hxmem, hxne⟩
      cases hpair
      exact ⟨hxmem, by simpa using hxne⟩
    · intro ⟨hmem, hne⟩
      exact List.mem_map.mpr ⟨h, List.mem_filter.mpr ⟨hmem, by simpa using hne⟩, rfl⟩
  · unfold sendMessageEvent
    rw [List.map_map]
    rfl
  · unfold typingEvent
    rw [hu, List.map_map]
    rfl

/-- Concrete room state: sockets s1, s2, s3 subscribed to topic "c"; s1
joined as user "u". -/
def rsSample : RoomState :=
  { rooms := [("c", ["s1", "s2", "s3"])]
    socketUser := fun s => if s = "s1" then some "u" else none }

/-- Concrete relayed message payload. -/
def mdSample : MessageData := { chatId := "c", body := "hello" }

/-- C9 witness at concrete inputs. -/
theorem c9_relay_excludes_sender_witness :
    rsSample.socketUser "s1" = some "u" ∧
    ((("s2", mdSample) ∈ sendMessageEvent rsSample "s1" mdSample ↔
        "s2" ∈ roomMembers rsSample mdSample.chatId ∧ "s2" ≠ "s1") ∧
     (("s2", ({ userId := some "u", isTyping := true } : TypingPayload))
         ∈ typingEvent rsSample "s1" mdSample.chatId true ↔
       "s2" ∈ roomMembers rsSample mdSample.chatId ∧ "s2" ≠ "s1") ∧
     (sendMessageEvent rsSample "s1" mdSample).map Prod.snd
       = ((roomMembers rsSample mdSample.chatId).filter (fun x => x ≠ "s1")).map
           (fun _ => mdSample) ∧
     (typingEvent rsSample "s1" mdSample.chatId true).map Prod.snd
       = ((roomMembers rsSample mdSample.chatId).filter (fun x => x ≠ "s1")).map
           (fun _ => ({ userId := some "u", isTyping := true } : TypingPayload))) :=
  ⟨rfl, c9_relay_excludes_sender rsSample "s1" "u" "s2" mdSample true rfl⟩

/-! ## Create-message endpoint (`router.post('/')`) -/

/-- Body of an HTTP response from the create route: either the stored
message document or an error object `{message: ...}`. -/
inductive ResponseBody where
  | messageDoc (m : Message)
  | errorMessage (s : String)
deriving DecidableEq, Repr

/-- An HTTP response: status code and body. -/
structure HttpResponse where
  status : Nat
  body : ResponseBody
deriving DecidableEq, Repr

/-- Outcome of `message.save()`. -/
inductive SaveOutcome where
  | saved
  | validationError
  | storageError
deriving DecidableEq, Repr

/-- Modelled from the spec: the Mongoose `Message` schema
(`models/Message.js` is not under src/); per §7 of the spec the required
fields are `recipient` and `content`, so `save()` raises a validation error
when either is missing, and a storage error when persistence is
unavailable. -/
def saveMessage (storageUp : Bool) (recipient content : Option String) : SaveOutcome :=
  if recipient.isNone || content.isNone then .validationError
  else if storageUp then .saved else .storageError

/-- A create-message request: the authenticated user plus the JSON body
fields (absent fields are `none`). -/
structure CreateRequest where
  userId : String
  recipient : Option String
  content : Option String
  messageType : Option String
deriving DecidableEq, Repr

/-- Route `router.post('/')`: destructure `{recipient, content, messageType =
'text'}`, compute the chatId, build and save the message; 201 with the
stored document on success, and on ANY caught error 500
`{message: 'Server error'}`.  (JS stringifies an absent field to
"undefined" inside the chatId computation.) -/
def createMessageRoute (storageUp : Bool) (req : CreateRequest)
    (mid createdAt : Nat) : HttpResponse :=
  let recipientVal := req.recipient.getD "undefined"
  let contentVal := req.content.getD "undefined"
  let messageType := req.messageType.getD "text"
  let chatId := sendChatId req.userId recipientVal
  let msg : Message :=
    { mid := mid, sender := req.userId, recipient := recipientVal,
      content := contentVal, messageType := messageType, chatId := chatId,
      createdAt := createdAt, isRead := false, readAt := none }
  match saveMessage storageUp req.recipient req.content with
  | .saved => { status := 201, body := .messageDoc msg }
  | .validationError => { status := 500, body := .errorMessage "Server error" }
  | .storageError => { status := 500, body := .errorMessage "Server error" }

/-- C8, counterexample: with storage available, a request missing the
required `recipient` field fails schema validation, yet the route's
catch-all responds 500 `Server error` — the same opaque response as a
storage failure, with no detail to correct the input — so the claim that a
malformed request yields a caller-recoverable validation error (and 500
arises only on storage failure) is false. -/
theorem c8_validation_counterexample :
    saveMessage true none (some "hi") = .validationError ∧
    createMessageRoute true
        ({ userId := "alice", recipient := none,
           content := some "hi", messageType := none }) 1 0
      = { status := 500, body := .errorMessage "Server error" } ∧
    (500 : Nat) ≠ 201 :=
  ⟨rfl, rfl, by decide⟩

/-- C8, amended: on success the endpoint returns 201 with the stored message
(sender attached, chatId computed from the pair); every failure — a schema
validation failure from a missing required field exactly like a storage
failure — is surfaced as 500 `{message: 'Server error'}`, so validation
errors are not distinguished nor returned with recoverable detail. -/
theorem c8_create_message_amended (storageUp : Bool) (uid r c : String)
    (mt : Option String) (mid createdAt : Nat) :
    createMessageRoute true
        ({ userId := uid, recipient := some r, content := some c,
           messageType := mt }) mid createdAt
      = { status := 201,
          body := .messageDoc
            { mid := mid, sender := uid, recipient := r, content := c,
              messageType := mt.getD "text", chatId := sendChatId uid r,
              createdAt := createdAt, isRead := false, readAt := none } } ∧
    createMessageRoute storageUp
        ({ userId := uid, recipient := none, content := some c,
           messageType := mt }) mid createdAt
      = { status := 500, body := .errorMessage "Server error" } ∧
    createMessageRoute storageUp
        ({ userId := uid, recipient := some r, content := none,
           messageType := mt }) mid createdAt
      = { status := 500, body := .errorMessage "Server error" } ∧
    createMessageRoute false
        ({ userId := uid, recipient := some r, content := some c,
           messageType := mt }) mid createdAt
      = { status := 500, body := .errorMessage "Server error" } :=
  ⟨rfl, rfl, rfl, rfl⟩

/-! ## ConversationAggregator (the chats route aggregate pipeline) -/

/-- The `$match` stage: messages where the requesting user is sender or
recipient. -/
def matchUser (u : String) (m : Message) : Bool :=
  m.sender == u || m.recipient == u

/-- One `$group` result: `_id: '$chatId'`, `lastMessage: {$first: '$$ROOT'}`
and the conditional-sum `unreadCount`. -/
structure ChatGroup where
  chatId : String
  lastMessage : Message
  unreadCount : Nat
deriving DecidableEq, Repr

/-- The conditional `$sum` of the `$group` stage: documents of the group
(same chatId) addressed to the user and still unread. -/
def unreadInChat (u cid : String) (l : List Message) : Nat :=
  (l.filter fun m => m.chatId == cid && m.recipient == u && m.isRead == false).length

/-- The `$group` entry for one chat key over the `$sort`ed documents:
`$first` picks the group's first document in pipeline order. -/
def groupFor (u : String) (sorted : List Message) (cid : String) : Option ChatGroup :=
  (sorted.find? fun m => m.chatId == cid).map fun m =>
    { chatId := cid, lastMessage := m, unreadCount := unreadInChat u cid sorted }

/-- The `$group` stage: one entry per distinct chatId among the sorted
documents.  `$group` emits its groups in unspecified order; the order of
this list is irrelevant because the following `$sort` stage is modelled
relationally. -/
def groupByChat (u : String) (sorted : List Message) : List ChatGroup :=
  ((sorted.map Message.chatId).dedup).filterMap (groupFor u sorted)

/-- Groups sorted by `{'lastMessage.createdAt': -1}`. -/
def GroupSortedDesc (l : List ChatGroup) : Prop :=
  l.Pairwise fun a b => b.lastMessage.createdAt ≤ a.lastMessage.createdAt

instance : DecidablePred GroupSortedDesc := fun l => by
  unfold GroupSortedDesc
  infer_instance

/-- Relation: `out` is a possible result of the final `$sort` stage applied to the
groups `gs` (ties on equal `lastMessage.createdAt` unspecified). -/
def IsGroupSortOf (gs out : List ChatGroup) : Prop :=
  gs.Perm out ∧ GroupSortedDesc out

instance (gs out : List ChatGroup) : Decidable (IsGroupSortOf gs out) := by
  unfold IsGroupSortOf
  infer_instance

/-- One row of the route's JSON answer. -/
structure ChatSummary where
  chatId : String
  otherUserId : String
  lastMessage : Message
  unreadCount : Nat
deriving DecidableEq, Repr

/-- The per-chat mapping after the aggregate: the counterpart (`otherUser`)
is whichever of sender/recipient on the lastMessage is not the requesting
user. -/
def toSummary (u : String) (g : ChatGroup) : ChatSummary :=
  { chatId := g.chatId
    otherUserId := if g.lastMessage.sender == u then g.lastMessage.recipient
                   else g.lastMessage.sender
    lastMessage := g.lastMessage
    unreadCount := g.unreadCount }

/-- Route `router.get('/')` of the chats route: map each sorted group to its
summary row. -/
def getChats (u : String) (sortedGroups : List ChatGroup) : List ChatSummary :=
  sortedGroups.map (toSummary u)

/-! ## Aggregator helper lemmas -/

theorem groupFor_some (u : String) (sorted : List Message) (cid : String)
    (h : cid ∈ sorted.map Message.chatId) :
    ∃ g, groupFor u sorted cid = some g ∧ g.chatId = cid := by
  obtain ⟨m, hm, hcid⟩ := List.mem_map.mp h
  have hsome : (sorted.find? fun x => x.chatId == cid).isSome := by
    rw [List.find?_isSome]
    exact ⟨m, hm, by simpa using hcid⟩
  obtain ⟨m2, hm2⟩ := Option.isSome_iff_exists.mp hsome
  refine ⟨{ chatId := cid, lastMessage := m2,
            unreadCount := unreadInChat u cid sorted }, ?_, rfl⟩
  unfold groupFor
  rw [hm2]
  rfl

theorem groupByChat_map_chatId (u : String) (sorted : List Message) :
    (groupByChat u sorted).map ChatGroup.chatId = (sorted.map Message.chatId).dedup := by
  unfold groupByChat
  have hkeys : ∀ cid ∈ (sorted.map Message.chatId).dedup,
      ∃ g, groupFor u sorted cid = some g ∧ g.chatId = cid := fun cid hcid =>
    groupFor_some u sorted cid (List.mem_dedup.mp hcid)
  suffices hgen : ∀ keys : List String,
      (∀ cid ∈ keys, ∃ g, groupFor u sorted cid = some g ∧ g.chatId = cid) →
      (keys.filterMap (groupFor u sorted)).map ChatGroup.chatId = keys by
    exact hgen _ hkeys
  intro keys hk
  induction keys with
  | nil => rfl
  | cons a t ih =>
      obtain ⟨g, hg, hkey⟩ := hk a (List.mem_cons_self a t)
      rw [List.filterMap_cons_some hg, List.map_cons, hkey,
        ih fun cid hcid => hk cid (List.mem_cons_of_mem a hcid)]

theorem unreadInChat_log (log : List Message) (u cid : String)
    (sorted : List Message)
    (hperm : (log.filter (matchUser u)).Perm sorted) :
    unreadInChat u cid sorted =
      (log.filter fun m =>
        m.chatId == cid && m.recipient == u && m.isRead == false).length := by
  unfold unreadInChat
  have h1 : (sorted.filter fun m =>
        m.chatId == cid && m.recipient == u && m.isRead == false).length
      = ((log.filter (matchUser u)).filter fun m =>
        m.chatId == cid && m.recipient == u && m.isRead == false).length :=
    ((hperm.symm.filter _)).length_eq
  rw [h1, List.filter_filter]
  congr 1
  apply List.filter_congr
  intro m _
  cases hpred : (m.chatId == cid && m.recipient == u && m.isRead == false) with
  | false => rfl
  | true =>
      have hrec : (m.recipient == u) = true := by
        have := hpred
        simp only [Bool.and_eq_true] at this
        simpa using this.1.2
      simp [matchUser, hrec]

/-- C5: for any valid `$sort` outputs of the pipeline, the chats route
returns exactly one summary per distinct chatId the user participates in
(never two rows with the same chatId), sorted by `lastMessage.createdAt`
descending; each row's unreadCount equals the number of messages of that
conversation addressed to the user with `isRead = false`, and its
counterpart is whichever of sender/recipient on the lastMessage is not the
user. -/
theorem c5_listConversations (log : List Message) (u : String)
    (sorted : List Message) (out : List ChatGroup) (cid : String)
    (c : ChatSummary)
    (hsort : IsDescSortOf (log.filter (matchUser u)) sorted)
    (hgs : IsGroupSortOf (groupByChat u sorted) out) :
    ((getChats u out).map ChatSummary.chatId).Nodup ∧
    (cid ∈ (getChats u out).map ChatSummary.chatId ↔
      ∃ m, m ∈ log ∧ m.chatId = cid ∧ (m.sender = u ∨ m.recipient = u)) ∧
    ((getChats u out).Pairwise fun a b =>
      b.lastMessage.createdAt ≤ a.lastMessage.createdAt) ∧
    (c ∈ getChats u out →
      c.unreadCount = (log.filter fun m =>
        m.chatId == c.chatId && m.recipient == u && m.isRead == false).length) ∧
    (c ∈ getChats u out →
      c.otherUserId = if c.lastMessage.sender = u then c.lastMessage.recipient
                      else c.lastMessage.sender) := by
  obtain ⟨hperm, _⟩ := hsort
  obtain ⟨hgperm, hgsorted⟩ := hgs
  have hmapchat : (getChats u out).map ChatSummary.chatId
      = out.map ChatGroup.chatId := by
    unfold getChats
    rw [List.map_map]
    rfl
  refine ⟨?_, ?_, ?_, ?_, ?_⟩
  · rw [hmapchat]
    have hnd : ((groupByChat u sorted).map ChatGroup.chatId).Nodup := by
      rw [groupByChat_map_chatId]
      exact List.nodup_dedup _
    exact (hgperm.map _).nodup_iff.mp hnd
  · rw [hmapchat]
    rw [(hgperm.map ChatGroup.chatId).mem_iff.symm, groupByChat_map_chatId,
      List.mem_dedup]
    constructor
    · intro hmem
      obtain ⟨m, hm, hcid⟩ := List.mem_map.mp hmem
      have hm2 : m ∈ log.filter (matchUser u) := hperm.mem_iff.mpr hm
      obtain ⟨hmlog, hmatch⟩ := List.mem_filter.mp hm2
      refine ⟨m, hmlog, hcid, ?_⟩
      simpa [matchUser] using hmatch
    · intro ⟨m, hmlog, hcid, hpart⟩
      refine List.mem_map.mpr ⟨m, ?_, hcid⟩
      apply hperm.mem_iff.mp
      exact List.mem_filter.mpr ⟨hmlog, by simpa [matchUser] using hpart⟩
  · exact List.pairwise_map.mpr hgsorted
  · intro hc
    obtain ⟨g, hg, rfl⟩ := List.mem_map.mp hc
    have hgg : g ∈ groupByChat u sorted := hgperm.mem_iff.mpr hg
    obtain ⟨cid2, _, hgf⟩ := List.mem_filterMap.mp hgg
    rcases hfind : sorted.find? fun m => m.chatId == cid2 with _ | m
    · unfold groupFor at hgf
      rw [hfind] at hgf
      exact absurd hgf (by simp)
    · unfold groupFor at hgf
      rw [hfind] at hgf
      have hgval : ({ chatId := cid2, lastMessage := m, unreadCount := unreadInChat u cid2 sorted } : ChatGroup) = g := by
        simpa using hgf
      subst hgval
      show unreadInChat u cid2 sorted = _
      exact unreadInChat_log log u cid2 sorted hperm
  · intro hc
    obtain ⟨g, _, rfl⟩ := List.mem_map.mp hc
    by_cases hs : g.lastMessage.sender = u <;> simp [toSummary, hs]

/-- Concrete group row used in the C5 witness. -/
def grpSample : ChatGroup :=
  { chatId := "alice_bob", lastMessage := msgB, unreadCount := 1 }

/-- C5 witness at concrete inputs. -/
theorem c5_listConversations_witness :
    IsDescSortOf ([msgA, msgB].filter (matchUser "alice")) logDescAB ∧
    IsGroupSortOf (groupByChat "alice" logDescAB) [grpSample] ∧
    (((getChats "alice" [grpSample]).map ChatSummary.chatId).Nodup ∧
     ("alice_bob" ∈ (getChats "alice" [grpSample]).map ChatSummary.chatId ↔
       ∃ m, m ∈ [msgA, msgB] ∧ m.chatId = "alice_bob" ∧
         (m.sender = "alice" ∨ m.recipient = "alice")) ∧
     ((getChats "alice" [grpSample]).Pairwise fun a b =>
       b.lastMessage.createdAt ≤ a.lastMessage.createdAt) ∧
     (toSummary "alice" grpSample ∈ getChats "alice" [grpSample] →
       (toSummary "alice" grpSample).unreadCount =
         ([msgA, msgB].filter fun m =>
           m.chatId == (toSummary "alice" grpSample).chatId &&
             m.recipient == "alice" && m.isRead == false).length) ∧
     (toSummary "alice" grpSample ∈ getChats "alice" [grpSample] →
       (toSummary "alice" grpSample).otherUserId =
         if (toSummary "alice" grpSample).lastMessage.sender = "alice"
         then (toSummary "alice" grpSample).lastMessage.recipient
         else (toSummary "alice" grpSample).lastMessage.sender)) :=
  ⟨by decide, by decide,
   c5_listConversations [msgA, msgB] "alice" logDescAB [grpSample] "alice_bob"
     (toSummary "alice" grpSample) (by decide) (by decide)⟩
